import Mathlib

/-!
Shallow embedding of the alt_bn128 precompile suite
(`src/precompiles/bn128.rs`): ECADD, ECMUL and ECPAIRING with their
Byzantium and Istanbul gas schedules.

Bytes are modelled as `List Nat` (each entry a byte value), machine
integers as `Nat`.  The underlying pairing library (`bn` crate) is out of
scope of the repository; per the design notes it is a trusted oracle with
three observable primitives.  Field-element interpretation and the G1
curve check are pinned down by the spec (values `≥ p` rejected;
`y² = x³ + 3`), so they are embedded concretely; the G1 group law, scalar
multiplication, G2 validity (curve + subgroup, checked by `AffineG2::new`)
and the pairing itself are oracle parameters of the embedding.

Fallible byte-slice indexing (`&input[a..b]`, which panics out of bounds
in Rust) is embedded as `Option`: `none` is the out-of-bounds panic.
Library errors surface as `Except ExitError`.
-/

deriving instance DecidableEq for Except

namespace Bn128

/-- The evm crate's exit-error kind, restricted to the variants this file
produces: `OutOfGas` and `Other` with a borrowed message string. -/
inductive ExitError where
  | OutOfGas : ExitError
  | Other : String → ExitError
deriving DecidableEq, Repr

/-- Success status; these precompiles only ever return `Returned`. -/
inductive ExitSucceed where
  | Returned : ExitSucceed
deriving DecidableEq, Repr

/-- The ambient EVM call context: accepted by every precompile to match
the ABI but never read. -/
structure Context where
  address : Nat
  caller : Nat
  apparent_value : Nat
deriving DecidableEq, Repr

/-- `PrecompileResult` payload: status, output bytes, refund. -/
def PrecompileOutput := ExitSucceed × List Nat × Nat

instance : DecidableEq PrecompileOutput := by
  unfold PrecompileOutput
  infer_instance

/-- Error message constants, verbatim from the source. -/
def msgInvalidX : String := "invalid `x` point"

def msgInvalidY : String := "invalid `y` point"

def msgInvalidCurve : String := "invalid curve point"

def msgInvalidField : String := "invalid field element"

def msgPairLen : String := "input length invalid, must be multiple of 192"

def msgAX : String := "invalid `a` argument, `x` coordinate"

def msgAY : String := "invalid `a` argument, `y` coordinate"

def msgANotOnCurve : String := "invalid `a` argument, not on curve"

def msgBNotOnCurve : String := "invalid `b` argument, not on curve"

/-! ### Bytes -/

/-- Big-endian bytes to natural number. -/
def beToNat (l : List Nat) : Nat := l.foldl (fun acc b => acc * 256 + b) 0

/-- `w`-byte big-endian encoding of `n % 256^w`. -/
def natToBE : Nat → Nat → List Nat
  | 0, _ => []
  | w + 1, n => natToBE w (n / 256) ++ [n % 256]

/-- 32-byte big-endian encoding (`U256::to_big_endian`). -/
def natToBE32 (n : Nat) : List Nat := natToBE 32 n

/-- `&input[pos..pos+32]`: `none` models the Rust out-of-bounds panic. -/
def slice32 (input : List Nat) (pos : Nat) : Option (List Nat) :=
  if pos + 32 ≤ input.length then some ((input.drop pos).take 32) else none

/-- `Vec::resize(n, 0)`: truncate to `n` when longer, right-pad with zero
bytes when shorter. -/
def resize (l : List Nat) (n : Nat) : List Nat :=
  l.take n ++ List.replicate (n - l.length) 0

/-! ### Field and point data model -/

/-- The alt_bn128 base-field prime `p`. -/
def bnP : Nat :=
  21888242871839275222246405745257275088696311157297823662689037894645226208583

/-- The alt_bn128 scalar-field (Fr) order `r`. -/
def bnR : Nat :=
  21888242871839275222246405745257275088548364400416034343698204186575808495617

/-- `Fq::interpret`: 32 big-endian bytes; values `≥ p` are rejected. -/
def interpretFq (bytes : List Nat) : Option Nat :=
  if beToNat bytes < bnP then some (beToNat bytes) else none

/-- `Fr::interpret`: 32 big-endian bytes; values `≥ r` are rejected. -/
def interpretFr (bytes : List Nat) : Option Nat :=
  if beToNat bytes < bnR then some (beToNat bytes) else none

/-- The G1 curve equation check `y² = x³ + 3` over Fq, performed by
`AffineG1::new`. -/
def onCurveG1 (x y : Nat) : Bool :=
  (y * y) % bnP == (x * x % bnP * x % bnP + 3) % bnP

/-- A G1 value: the point at infinity (`G1::zero`) or an affine pair. -/
inductive G1 where
  | zero : G1
  | point : Nat → Nat → G1
deriving DecidableEq, Repr

/-- Fq2 element, as the ordered pair (real, imag). -/
structure Fq2 where
  re : Nat
  im : Nat
deriving DecidableEq, Repr

/-- A G2 value: the point at infinity (`G2::zero`) or an affine pair of
Fq2 coordinates. -/
inductive G2 where
  | zero : G2
  | point : Fq2 → Fq2 → G2
deriving DecidableEq, Repr

/-! ### Shared G1 decoding (`read_point`) -/

/-- `read_point`: reads `x` and `y` Fq lanes of a G1 point from `input`
at `pos`, exactly as the source: slice (panic = `none`), interpret `x`,
slice, interpret `y`, the `(0,0) ↦ infinity` rule, then the curve check. -/
def read_point (input : List Nat) (pos : Nat) : Option (Except ExitError G1) :=
  match slice32 input pos with
  | none => none
  | some pxb =>
    match interpretFq pxb with
    | none => some (Except.error (ExitError.Other msgInvalidX))
    | some px =>
      match slice32 input (pos + 32) with
      | none => none
      | some pyb =>
        match interpretFq pyb with
        | none => some (Except.error (ExitError.Other msgInvalidY))
        | some py =>
          if px = 0 ∧ py = 0 then some (Except.ok G1.zero)
          else if onCurveG1 px py then some (Except.ok (G1.point px py))
          else some (Except.error (ExitError.Other msgInvalidCurve))

/-! ### Gas schedules -/

/-- Hard-fork tag: selects only the gas constants. -/
inductive Fork where
  | Byzantium : Fork
  | Istanbul : Fork
deriving DecidableEq, Repr

/-- ECADD gas: 500 Byzantium, 150 Istanbul. -/
def addGas : Fork → Nat
  | Fork.Byzantium => 500
  | Fork.Istanbul => 150

/-- ECMUL gas: 40000 Byzantium, 6000 Istanbul. -/
def mulGas : Fork → Nat
  | Fork.Byzantium => 40000
  | Fork.Istanbul => 6000

/-- ECPAIRING per-point gas: 80000 Byzantium, 34000 Istanbul. -/
def pairPerPoint : Fork → Nat
  | Fork.Byzantium => 80000
  | Fork.Istanbul => 34000

/-- ECPAIRING base gas: 100000 Byzantium, 45000 Istanbul. -/
def pairBase : Fork → Nat
  | Fork.Byzantium => 100000
  | Fork.Istanbul => 45000

/-- `BN128Pair::required_gas`, with the source's evaluation order:
`PER_POINT * input.len() / PAIR_ELEMENT_LEN + BASE` — the multiplication
happens before the (flooring) division. -/
def pairRequiredGas (f : Fork) (input : List Nat) : Nat :=
  pairPerPoint f * input.length / 192 + pairBase f

/-! ### ECADD -/

/-- Encode an affine G1 result into the 64-byte output buffer: the buffer
starts all-zero and is written only when `AffineG1::from_jacobian`
returns a point, i.e. when the result is not the point at infinity. -/
def encodeG1 : G1 → List Nat
  | G1.zero => List.replicate 64 0
  | G1.point x y => natToBE32 x ++ natToBE32 y

namespace BN128Add

/-- `BN128Add::run_inner`, with the group addition `p1 + p2` (and its
affine normalisation) supplied by the oracle `g1Add`. -/
def run_inner (g1Add : G1 → G1 → G1) (input : List Nat) (_ctx : Context) :
    Option (Except ExitError PrecompileOutput) :=
  let input := resize input 128
  match read_point input 0 with
  | none => none
  | some (Except.error e) => some (Except.error e)
  | some (Except.ok p1) =>
    match read_point input 64 with
    | none => none
    | some (Except.error e) => some (Except.error e)
    | some (Except.ok p2) =>
      some (Except.ok (ExitSucceed.Returned, encodeG1 (g1Add p1 p2), 0))

/-- `BN128Add::run`: gas gate, then `run_inner`. -/
def run (f : Fork) (g1Add : G1 → G1 → G1) (input : List Nat) (gas : Nat)
    (ctx : Context) : Option (Except ExitError PrecompileOutput) :=
  if addGas f > gas then some (Except.error ExitError.OutOfGas)
  else run_inner g1Add input ctx

end BN128Add

/-! ### ECMUL -/

namespace BN128Mul

/-- `BN128Mul::run_inner`, with the scalar multiplication `p * fr`
supplied by the oracle `g1Mul`. -/
def run_inner (g1Mul : G1 → Nat → G1) (input : List Nat) (_ctx : Context) :
    Option (Except ExitError PrecompileOutput) :=
  let input := resize input 128
  match read_point input 0 with
  | none => none
  | some (Except.error e) => some (Except.error e)
  | some (Except.ok p) =>
    match slice32 input 64 with
    | none => none
    | some frb =>
      match interpretFr frb with
      | none => some (Except.error (ExitError.Other msgInvalidField))
      | some fr =>
        some (Except.ok (ExitSucceed.Returned, encodeG1 (g1Mul p fr), 0))

/-- `BN128Mul::run`: gas gate, then `run_inner`. -/
def run (f : Fork) (g1Mul : G1 → Nat → G1) (input : List Nat) (gas : Nat)
    (ctx : Context) : Option (Except ExitError PrecompileOutput) :=
  if mulGas f > gas then some (Except.error ExitError.OutOfGas)
  else run_inner g1Mul input ctx

end BN128Mul

/-! ### ECPAIRING -/

namespace BN128Pair

/-- One Fq lane of a pairing element: slice 32 bytes (panic = `none`),
then `Fq::interpret` with the given error message. -/
def readFq (input : List Nat) (pos : Nat) (msg : String) :
    Option (Except ExitError Nat) :=
  match slice32 input pos with
  | none => none
  | some b =>
    match interpretFq b with
    | none => some (Except.error (ExitError.Other msg))
    | some v => some (Except.ok v)

/-- Decode the `idx`-th 192-byte pairing element: six Fq lanes in source
order (`ax, ay, bay, bax, bby, bbx`) with the source's error messages,
then the G1 half (zero rule + curve check), then the G2 half via the
oracle validity check `g2Valid` standing for `AffineG2::new`. -/
def decodePairElement (g2Valid : Fq2 → Fq2 → Bool) (input : List Nat)
    (idx : Nat) : Option (Except ExitError (G1 × G2)) :=
  match readFq input (idx * 192) msgAX with
  | none => none
  | some (Except.error e) => some (Except.error e)
  | some (Except.ok ax) =>
  match readFq input (idx * 192 + 32) msgAY with
  | none => none
  | some (Except.error e) => some (Except.error e)
  | some (Except.ok ay) =>
  match readFq input (idx * 192 + 64) msgAX with
  | none => none
  | some (Except.error e) => some (Except.error e)
  | some (Except.ok bay) =>
  match readFq input (idx * 192 + 96) msgAX with
  | none => none
  | some (Except.error e) => some (Except.error e)
  | some (Except.ok bax) =>
  match readFq input (idx * 192 + 128) msgAX with
  | none => none
  | some (Except.error e) => some (Except.error e)
  | some (Except.ok bby) =>
  match readFq input (idx * 192 + 160) msgAX with
  | none => none
  | some (Except.error e) => some (Except.error e)
  | some (Except.ok bbx) =>
    match (if ax = 0 ∧ ay = 0 then some G1.zero
           else if onCurveG1 ax ay then some (G1.point ax ay) else none) with
    | none => some (Except.error (ExitError.Other msgANotOnCurve))
    | some a =>
      let ba : Fq2 := ⟨bax, bay⟩
      let bb : Fq2 := ⟨bbx, bby⟩
      if ba = (⟨0, 0⟩ : Fq2) ∧ bb = (⟨0, 0⟩ : Fq2) then
        some (Except.ok (a, G2.zero))
      else if g2Valid ba bb then some (Except.ok (a, G2.point ba bb))
      else some (Except.error (ExitError.Other msgBNotOnCurve))

/-- Decode the first `count` pairing elements in index order,
accumulating the `vals` vector; errors at the smallest failing index win,
as in the source loop. -/
def decodeElems (g2Valid : Fq2 → Fq2 → Bool) (input : List Nat) :
    Nat → Option (Except ExitError (List (G1 × G2)))
  | 0 => some (Except.ok [])
  | k + 1 =>
    match decodeElems g2Valid input k with
    | none => none
    | some (Except.error e) => some (Except.error e)
    | some (Except.ok vs) =>
      match decodePairElement g2Valid input k with
      | none => none
      | some (Except.error e) => some (Except.error e)
      | some (Except.ok ab) => some (Except.ok (vs ++ [ab]))

/-- `BN128Pair::run_inner`: the length framing check, the empty-input
shortcut, element decoding, the `Gt` fold, and the 32-byte output. -/
def run_inner {Gt : Type} [One Gt] [Mul Gt] [DecidableEq Gt]
    (g2Valid : Fq2 → Fq2 → Bool) (pairing : G1 → G2 → Gt)
    (input : List Nat) (_ctx : Context) :
    Option (Except ExitError PrecompileOutput) :=
  if input.length % 192 ≠ 0 then
    some (Except.error (ExitError.Other msgPairLen))
  else if input = [] then
    some (Except.ok (ExitSucceed.Returned, natToBE32 1, 0))
  else
    match decodeElems g2Valid input (input.length / 192) with
    | none => none
    | some (Except.error e) => some (Except.error e)
    | some (Except.ok vals) =>
      let m : Gt := vals.foldl (fun s ab => s * pairing ab.1 ab.2) 1
      some (Except.ok
        (ExitSucceed.Returned, natToBE32 (if m = 1 then 1 else 0), 0))

/-- `BN128Pair::run`: gas gate (with the source's multiply-then-divide
gas formula), then `run_inner`. -/
def run {Gt : Type} [One Gt] [Mul Gt] [DecidableEq Gt] (f : Fork)
    (g2Valid : Fq2 → Fq2 → Bool) (pairing : G1 → G2 → Gt)
    (input : List Nat) (gas : Nat) (ctx : Context) :
    Option (Except ExitError PrecompileOutput) :=
  if pairRequiredGas f input > gas then some (Except.error ExitError.OutOfGas)
  else run_inner g2Valid pairing input ctx

end BN128Pair

/-- The 32-byte lane of `input` starting at `pos`, as a big-endian number
(the value `Fq::interpret` sees when the slice is in bounds). -/
def lane (input : List Nat) (pos : Nat) : Nat :=
  beToNat ((input.drop pos).take 32)

/-- The `k`-th 32-byte lane of the `idx`-th 192-byte pairing element. -/
def elemLane (input : List Nat) (idx k : Nat) : Nat :=
  lane input (idx * 192 + 32 * k)

/-- The ECPAIRING gas formula as the code computes it: the flooring
division by 192 is applied after multiplying the per-point cost by the
input length (stated over the length alone, for comparison with the
spec's formula). -/
def pairRequiredGas_amended (f : Fork) (len : Nat) : Nat :=
  pairPerPoint f * len / 192 + pairBase f

end Bn128

namespace Bn128

set_option maxRecDepth 10000

/-! ### Helper lemmas -/

theorem slice32_eq {input : List Nat} {pos : Nat} (h : pos + 32 ≤ input.length) :
    slice32 input pos = some ((input.drop pos).take 32) := by
  simp [slice32, h]

theorem length_resize (l : List Nat) (n : Nat) : (resize l n).length = n := by
  simp [resize]
  omega

theorem readFq_eq {input : List Nat} {pos : Nat} (msg : String)
    (h : pos + 32 ≤ input.length) :
    BN128Pair.readFq input pos msg =
      if lane input pos < bnP then some (Except.ok (lane input pos))
      else some (Except.error (ExitError.Other msg)) := by
  simp only [BN128Pair.readFq, slice32_eq h, interpretFq, lane]
  by_cases hc : beToNat ((input.drop pos).take 32) < bnP
  · simp [hc]
  · simp [hc]

theorem read_point_isSome (input : List Nat) (pos : Nat)
    (h : pos + 64 ≤ input.length) : (read_point input pos).isSome := by
  have h1 : pos + 32 ≤ input.length := by omega
  have h2 : pos + 32 + 32 ≤ input.length := by omega
  simp only [read_point, slice32_eq h1, slice32_eq h2, interpretFq]
  by_cases c1 : beToNat ((input.drop pos).take 32) < bnP
  · by_cases c2 : beToNat ((input.drop (pos + 32)).take 32) < bnP
    · simp only [if_pos c1, if_pos c2]
      split
      · simp
      · split <;> simp
    · simp [c1, c2]
  · simp [c1]

theorem readFq_isSome (input : List Nat) (pos : Nat) (msg : String)
    (h : pos + 32 ≤ input.length) :
    (BN128Pair.readFq input pos msg).isSome := by
  rw [readFq_eq msg h]
  split <;> simp

theorem decodePairElement_isSome (g2Valid : Fq2 → Fq2 → Bool)
    (input : List Nat) (idx : Nat) (h : idx * 192 + 192 ≤ input.length) :
    (BN128Pair.decodePairElement g2Valid input idx).isSome := by
  obtain ⟨r0, h0⟩ := Option.isSome_iff_exists.mp
    (readFq_isSome input (idx * 192) msgAX (by omega))
  obtain ⟨r1, h1⟩ := Option.isSome_iff_exists.mp
    (readFq_isSome input (idx * 192 + 32) msgAY (by omega))
  obtain ⟨r2, h2⟩ := Option.isSome_iff_exists.mp
    (readFq_isSome input (idx * 192 + 64) msgAX (by omega))
  obtain ⟨r3, h3⟩ := Option.isSome_iff_exists.mp
    (readFq_isSome input (idx * 192 + 96) msgAX (by omega))
  obtain ⟨r4, h4⟩ := Option.isSome_iff_exists.mp
    (readFq_isSome input (idx * 192 + 128) msgAX (by omega))
  obtain ⟨r5, h5⟩ := Option.isSome_iff_exists.mp
    (readFq_isSome input (idx * 192 + 160) msgAX (by omega))
  simp only [BN128Pair.decodePairElement, h0, h1, h2, h3, h4, h5]
  cases r0 <;> cases r1 <;> cases r2 <;> cases r3 <;> cases r4 <;> cases r5 <;>
    try simp
  all_goals
    split
    · simp
    · split
      · simp
      · split <;> simp

theorem decodeElems_isSome (g2Valid : Fq2 → Fq2 → Bool)
    (input : List Nat) (count : Nat) (h : count * 192 ≤ input.length) :
    (BN128Pair.decodeElems g2Valid input count).isSome := by
  induction count with
  | zero => simp [BN128Pair.decodeElems]
  | succ k ih =>
    have hk : k * 192 ≤ input.length := by omega
    obtain ⟨r, hr⟩ := Option.isSome_iff_exists.mp (ih hk)
    obtain ⟨e, he⟩ := Option.isSome_iff_exists.mp
      (decodePairElement_isSome g2Valid input k (by omega))
    simp only [BN128Pair.decodeElems, hr, he]
    cases r <;> cases e <;> simp

end Bn128

namespace Bn128

set_option maxRecDepth 10000

/-! ### Claim theorems -/

/-- C9: for every operation, fork, input and gas limit, and any two call
contexts, `run` yields identical (status, output, refund) results — the
call context is never read, so each precompile is a deterministic pure
function of (input, gas_limit, fork). -/
theorem run_context_independent {Gt : Type} [One Gt] [Mul Gt] [DecidableEq Gt]
    (g1Add : G1 → G1 → G1) (g1Mul : G1 → Nat → G1)
    (g2Valid : Fq2 → Fq2 → Bool) (pairing : G1 → G2 → Gt)
    (f : Fork) (input : List Nat) (gas : Nat) (c1 c2 : Context) :
    BN128Add.run f g1Add input gas c1 = BN128Add.run f g1Add input gas c2 ∧
    BN128Mul.run f g1Mul input gas c1 = BN128Mul.run f g1Mul input gas c2 ∧
    BN128Pair.run f g2Valid pairing input gas c1 =
      BN128Pair.run f g2Valid pairing input gas c2 :=
  ⟨rfl, rfl, rfl⟩

/-- C2: for every operation, fork, input and gas limit: if the required
gas exceeds the gas limit the result is exactly `OutOfGas`, regardless of
the input bytes; if the required gas is at most the gas limit (equality
included) the gate passes and the call proceeds to `run_inner`, with
ECPAIRING's length-framing error produced only after the gate passes. -/
theorem gas_gate_first {Gt : Type} [One Gt] [Mul Gt] [DecidableEq Gt]
    (g1Add : G1 → G1 → G1) (g1Mul : G1 → Nat → G1)
    (g2Valid : Fq2 → Fq2 → Bool) (pairing : G1 → G2 → Gt)
    (f : Fork) (input : List Nat) (gas : Nat) (ctx : Context) :
    (addGas f > gas →
      BN128Add.run f g1Add input gas ctx = some (Except.error ExitError.OutOfGas)) ∧
    (addGas f ≤ gas →
      BN128Add.run f g1Add input gas ctx = BN128Add.run_inner g1Add input ctx) ∧
    (mulGas f > gas →
      BN128Mul.run f g1Mul input gas ctx = some (Except.error ExitError.OutOfGas)) ∧
    (mulGas f ≤ gas →
      BN128Mul.run f g1Mul input gas ctx = BN128Mul.run_inner g1Mul input ctx) ∧
    (pairRequiredGas f input > gas →
      BN128Pair.run f g2Valid pairing input gas ctx =
        some (Except.error ExitError.OutOfGas)) ∧
    (pairRequiredGas f input ≤ gas →
      BN128Pair.run f g2Valid pairing input gas ctx =
        BN128Pair.run_inner g2Valid pairing input ctx) ∧
    (pairRequiredGas f input ≤ gas → input.length % 192 ≠ 0 →
      BN128Pair.run f g2Valid pairing input gas ctx =
        some (Except.error (ExitError.Other msgPairLen))) := by
  refine ⟨?_, ?_, ?_, ?_, ?_, ?_, ?_⟩ <;> intro hgas
  · simp [BN128Add.run, hgas]
  · simp [BN128Add.run, Nat.not_lt.mpr hgas]
  · simp [BN128Mul.run, hgas]
  · simp [BN128Mul.run, Nat.not_lt.mpr hgas]
  · simp [BN128Pair.run, hgas]
  · simp [BN128Pair.run, Nat.not_lt.mpr hgas]
  · intro hlen
    simp [BN128Pair.run, Nat.not_lt.mpr hgas, BN128Pair.run_inner, hlen]

/-- Witness for C2: the gas gate fires on a 66-byte input with zero gas,
and with sufficient gas the same malformed input instead reaches the
framing error. -/
theorem gas_gate_first_witness :
    BN128Add.run Fork.Byzantium (fun _ _ => G1.zero) (List.replicate 66 0) 0
        ⟨0, 0, 0⟩ = some (Except.error ExitError.OutOfGas) ∧
    BN128Mul.run Fork.Byzantium (fun _ _ => G1.zero) (List.replicate 66 0) 0
        ⟨0, 0, 0⟩ = some (Except.error ExitError.OutOfGas) ∧
    BN128Pair.run Fork.Byzantium (fun _ _ => true) (fun _ _ => (1 : Nat))
        (List.replicate 66 0) 0 ⟨0, 0, 0⟩ =
      some (Except.error ExitError.OutOfGas) ∧
    BN128Pair.run Fork.Byzantium (fun _ _ => true) (fun _ _ => (1 : Nat))
        (List.replicate 66 0) 127500 ⟨0, 0, 0⟩ =
      some (Except.error (ExitError.Other msgPairLen)) := by
  refine ⟨?_, ?_, ?_, ?_⟩
  · exact (gas_gate_first (fun _ _ => G1.zero) (fun _ _ => G1.zero)
      (fun _ _ => true) (fun _ _ => 1) Fork.Byzantium (List.replicate 66 0) 0
      ⟨0, 0, 0⟩).1 (by decide)
  · exact (gas_gate_first (fun _ _ => G1.zero) (fun _ _ => G1.zero)
      (fun _ _ => true) (fun _ _ => 1) Fork.Byzantium (List.replicate 66 0) 0
      ⟨0, 0, 0⟩).2.2.1 (by decide)
  · exact (gas_gate_first (fun _ _ => G1.zero) (fun _ _ => G1.zero)
      (fun _ _ => true) (fun _ _ => 1) Fork.Byzantium (List.replicate 66 0) 0
      ⟨0, 0, 0⟩).2.2.2.2.1 (by decide)
  · exact (gas_gate_first (fun _ _ => G1.zero) (fun _ _ => G1.zero)
      (fun _ _ => true) (fun _ _ => 1) Fork.Byzantium (List.replicate 66 0)
      127500 ⟨0, 0, 0⟩).2.2.2.2.2.2 (by decide) (by decide)

/-- C10: every byte-slice access performed by ECADD, ECMUL and ECPAIRING
is in bounds for every input: in this total embedding, where indexing
returns `Option` and `none` is the out-of-bounds panic, every call
terminates with `some` defined result. -/
theorem run_no_out_of_bounds {Gt : Type} [One Gt] [Mul Gt] [DecidableEq Gt]
    (g1Add : G1 → G1 → G1) (g1Mul : G1 → Nat → G1)
    (g2Valid : Fq2 → Fq2 → Bool) (pairing : G1 → G2 → Gt)
    (f : Fork) (input : List Nat) (gas : Nat) (ctx : Context) :
    (BN128Add.run f g1Add input gas ctx).isSome ∧
    (BN128Mul.run f g1Mul input gas ctx).isSome ∧
    (BN128Pair.run f g2Valid pairing input gas ctx).isSome := by
  refine ⟨?_, ?_, ?_⟩
  · rw [BN128Add.run]
    split
    · simp
    · rw [BN128Add.run_inner]
      have hres : (resize input 128).length = 128 := length_resize input 128
      obtain ⟨r1, h1⟩ := Option.isSome_iff_exists.mp
        (read_point_isSome (resize input 128) 0 (by omega))
      obtain ⟨r2, h2⟩ := Option.isSome_iff_exists.mp
        (read_point_isSome (resize input 128) 64 (by omega))
      simp only [h1, h2]
      cases r1 <;> cases r2 <;> simp
  · rw [BN128Mul.run]
    split
    · simp
    · rw [BN128Mul.run_inner]
      have hres : (resize input 128).length = 128 := length_resize input 128
      obtain ⟨r1, h1⟩ := Option.isSome_iff_exists.mp
        (read_point_isSome (resize input 128) 0 (by omega))
      simp only [h1, slice32_eq (show 64 + 32 ≤ (resize input 128).length by omega)]
      cases r1 <;> simp [interpretFr]
      split <;> simp
  · rw [BN128Pair.run]
    split
    · simp
    · rw [BN128Pair.run_inner]
      split
      · simp
      · split
        · simp
        · obtain ⟨r, hr⟩ := Option.isSome_iff_exists.mp
            (decodeElems_isSome g2Valid input (input.length / 192)
              (Nat.div_mul_le_self input.length 192))
          simp only [hr]
          cases r <;> simp

end Bn128

namespace Bn128

set_option maxRecDepth 10000

/-- C5: decoding a G1 point from 64 bytes at `pos` first interprets the
`x` lane (failing with `invalid x point` when out of Fq range), then the
`y` lane (failing with `invalid y point`), maps `(0,0)` to the identity,
and otherwise fails with `invalid curve point` exactly when `(x,y)` does
not satisfy `y² = x³ + 3`; the four cases are exhaustive, so the errors
occur in this order and in no other case. -/
theorem read_point_cases (input : List Nat) (pos : Nat)
    (hlen : pos + 64 ≤ input.length) :
    (bnP ≤ lane input pos →
      read_point input pos = some (Except.error (ExitError.Other msgInvalidX))) ∧
    (lane input pos < bnP → bnP ≤ lane input (pos + 32) →
      read_point input pos = some (Except.error (ExitError.Other msgInvalidY))) ∧
    (lane input pos = 0 → lane input (pos + 32) = 0 →
      read_point input pos = some (Except.ok G1.zero)) ∧
    (lane input pos < bnP → lane input (pos + 32) < bnP →
      ¬(lane input pos = 0 ∧ lane input (pos + 32) = 0) →
      (onCurveG1 (lane input pos) (lane input (pos + 32)) = true →
        read_point input pos =
          some (Except.ok (G1.point (lane input pos) (lane input (pos + 32))))) ∧
      (onCurveG1 (lane input pos) (lane input (pos + 32)) = false →
        read_point input pos =
          some (Except.error (ExitError.Other msgInvalidCurve)))) := by
  have h1 : pos + 32 ≤ input.length := by omega
  have h2 : pos + 32 + 32 ≤ input.length := by omega
  have hp : (0 : Nat) < bnP := by norm_num [bnP]
  simp only [read_point, slice32_eq h1, slice32_eq h2, interpretFq]
  refine ⟨?_, ?_, ?_, ?_⟩
  · intro hx
    rw [if_neg (by simp only [lane] at hx; omega)]
  · intro hx hy
    rw [if_pos (by simpa [lane] using hx), if_neg (by simp only [lane] at hy; omega)]
  · intro hx hy
    simp only [lane] at hx hy
    rw [if_pos (by omega), if_pos (by omega)]
    simp [hx, hy]
  · intro hx hy hnz
    simp only [lane] at hx hy hnz
    rw [if_pos (by omega), if_pos (by omega)]
    constructor <;> intro hc <;> simp only [lane] at hc <;>
      simp [hnz, hc, lane]

/-- Witness for C5: all-zero lanes land in the identity case. -/
theorem read_point_cases_witness :
    read_point (List.replicate 128 0) 0 = some (Except.ok G1.zero) :=
  (read_point_cases (List.replicate 128 0) 0 (by decide)).2.2.1
    (by decide) (by decide)

/-! Resize lemmas for the padding-equivalence claim. -/

theorem resize_append_replicate (l : List Nat) (n : Nat) (h : l.length ≤ n) :
    resize (l ++ List.replicate (n - l.length) 0) n = resize l n := by
  have hl : (l ++ List.replicate (n - l.length) 0).length = n := by
    simp
    omega
  rw [resize, resize, List.take_of_length_le (le_of_eq hl), hl,
    List.take_of_length_le h]
  simp

theorem resize_take (l : List Nat) (n : Nat) (h : n ≤ l.length) :
    resize (l.take n) n = resize l n := by
  have ht : (l.take n).length = n := by
    simp
    omega
  rw [resize, resize, List.take_of_length_le (le_of_eq ht), ht]
  rw [Nat.sub_self, Nat.sub_eq_zero_of_le h]

theorem resize_pad_96 (l : List Nat) (h : l.length < 96) :
    resize (l ++ List.replicate (96 - l.length) 0) 128 = resize l 128 := by
  have hl : (l ++ List.replicate (96 - l.length) 0).length = 96 := by
    simp
    omega
  rw [resize, resize, List.take_of_length_le (by omega), hl,
    List.take_of_length_le (by omega)]
  have : (96 : Nat) - l.length + (128 - 96) = 128 - l.length := by omega
  rw [List.append_assoc, ← List.replicate_add, this]

theorem add_run_inner_congr (g1Add : G1 → G1 → G1) (a b : List Nat)
    (ctx : Context) (h : resize a 128 = resize b 128) :
    BN128Add.run_inner g1Add a ctx = BN128Add.run_inner g1Add b ctx := by
  rw [BN128Add.run_inner, BN128Add.run_inner, h]

theorem mul_run_inner_congr (g1Mul : G1 → Nat → G1) (a b : List Nat)
    (ctx : Context) (h : resize a 128 = resize b 128) :
    BN128Mul.run_inner g1Mul a ctx = BN128Mul.run_inner g1Mul b ctx := by
  rw [BN128Mul.run_inner, BN128Mul.run_inner, h]

/-- C6: for every fork and gas limit, ECADD and ECMUL give the same
result on an input and on that input right-padded with zero bytes to 128
bytes (when shorter) or truncated to its first 128 bytes (when longer);
for ECMUL any input shorter than 96 bytes is also equivalent to the same
input zero-padded to 96 bytes. -/
theorem padding_equivalence (g1Add : G1 → G1 → G1) (g1Mul : G1 → Nat → G1)
    (f : Fork) (input : List Nat) (gas : Nat) (ctx : Context) :
    (input.length ≤ 128 →
      BN128Add.run f g1Add input gas ctx =
        BN128Add.run f g1Add (input ++ List.replicate (128 - input.length) 0)
          gas ctx) ∧
    (128 < input.length →
      BN128Add.run f g1Add input gas ctx =
        BN128Add.run f g1Add (input.take 128) gas ctx) ∧
    (input.length ≤ 128 →
      BN128Mul.run f g1Mul input gas ctx =
        BN128Mul.run f g1Mul (input ++ List.replicate (128 - input.length) 0)
          gas ctx) ∧
    (128 < input.length →
      BN128Mul.run f g1Mul input gas ctx =
        BN128Mul.run f g1Mul (input.take 128) gas ctx) ∧
    (input.length < 96 →
      BN128Mul.run f g1Mul input gas ctx =
        BN128Mul.run f g1Mul (input ++ List.replicate (96 - input.length) 0)
          gas ctx) := by
  refine ⟨?_, ?_, ?_, ?_, ?_⟩ <;> intro h <;>
    simp only [BN128Add.run, BN128Mul.run]
  · rw [add_run_inner_congr g1Add input _ ctx
      (resize_append_replicate input 128 h).symm]
  · rw [add_run_inner_congr g1Add input _ ctx (resize_take input 128 (by omega)).symm]
  · rw [mul_run_inner_congr g1Mul input _ ctx
      (resize_append_replicate input 128 h).symm]
  · rw [mul_run_inner_congr g1Mul input _ ctx (resize_take input 128 (by omega)).symm]
  · rw [mul_run_inner_congr g1Mul input _ ctx (resize_pad_96 input h).symm]

/-- Witness for C6: the empty input is equivalent to 128 zero bytes for
ECADD, and a 200-byte input is equivalent to its first 128 bytes for
ECMUL. -/
theorem padding_equivalence_witness :
    BN128Add.run Fork.Byzantium (fun _ _ => G1.zero) [] 500 ⟨0, 0, 0⟩ =
      BN128Add.run Fork.Byzantium (fun _ _ => G1.zero) (List.replicate 128 0)
        500 ⟨0, 0, 0⟩ ∧
    BN128Mul.run Fork.Byzantium (fun _ _ => G1.zero) (List.replicate 200 1)
        40000 ⟨0, 0, 0⟩ =
      BN128Mul.run Fork.Byzantium (fun _ _ => G1.zero)
        ((List.replicate 200 1).take 128) 40000 ⟨0, 0, 0⟩ := by
  constructor
  · exact (padding_equivalence (fun _ _ => G1.zero) (fun _ _ => G1.zero)
      Fork.Byzantium [] 500 ⟨0, 0, 0⟩).1 (by decide)
  · exact (padding_equivalence (fun _ _ => G1.zero) (fun _ _ => G1.zero)
      Fork.Byzantium (List.replicate 200 1) 40000 ⟨0, 0, 0⟩).2.2.2.1 (by decide)

/-- Counterexample for C7: with `a` a single zero byte and `b` 191 zero
bytes, `required_gas(a ∥ b) = 180000` under Byzantium, but
`required_gas(a) + per_point · len(b)/192` is `100416` under the
floor-first reading and `179999` under the multiply-first reading —
neither matches, so the claimed identity fails for unaligned `a`. -/
theorem pair_gas_concat_counterexample :
    pairRequiredGas Fork.Byzantium ([0] ++ List.replicate 191 0) = 180000 ∧
    pairRequiredGas Fork.Byzantium [0] +
        pairPerPoint Fork.Byzantium * ((List.replicate 191 (0 : Nat)).length / 192)
      ≠ 180000 ∧
    pairRequiredGas Fork.Byzantium [0] +
        pairPerPoint Fork.Byzantium * (List.replicate 191 (0 : Nat)).length / 192
      ≠ 180000 := by
  refine ⟨by decide, by decide, by decide⟩

/-- C7 (amended): the concatenation identity holds whenever `len(a)` is a
multiple of 192, with the per-point term computed as the code computes it
(`per_point · len(b)` divided by 192, flooring after the multiplication):
`required_gas(a ∥ b) = required_gas(a) + per_point · len(b) / 192`. -/
theorem pair_gas_concat (f : Fork) (a b : List Nat)
    (h : a.length % 192 = 0) :
    pairRequiredGas f (a ++ b) =
      pairRequiredGas f a + pairPerPoint f * b.length / 192 := by
  obtain ⟨k, hk⟩ := Nat.dvd_of_mod_eq_zero h
  simp only [pairRequiredGas, List.length_append, hk]
  have e1 : pairPerPoint f * (192 * k + b.length) =
      192 * (pairPerPoint f * k) + pairPerPoint f * b.length := by ring
  have e2 : pairPerPoint f * (192 * k) = 192 * (pairPerPoint f * k) := by ring
  rw [e1, e2, Nat.mul_add_div (by norm_num), Nat.mul_div_cancel_left _ (by norm_num)]
  omega

/-- Witness for C7 (amended): one whole element followed by one byte. -/
theorem pair_gas_concat_witness :
    pairRequiredGas Fork.Byzantium (List.replicate 192 0 ++ [0]) =
      pairRequiredGas Fork.Byzantium (List.replicate 192 0) +
        pairPerPoint Fork.Byzantium * ([0] : List Nat).length / 192 :=
  pair_gas_concat Fork.Byzantium (List.replicate 192 0) [0] (by decide)

end Bn128

namespace Bn128

set_option maxRecDepth 10000

/-- Counterexample for C1: on a 66-byte input the Byzantium required gas
is 127500, not `80000 · (66/192) + 100000 = 100000`, because the code
multiplies the per-point cost by the length before the flooring division;
consequently, at `gas_limit = 100000` the call returns `OutOfGas` rather
than passing the gate and reaching the framing error. -/
theorem pair_required_gas_counterexample :
    pairRequiredGas Fork.Byzantium (List.replicate 66 0) ≠
      80000 * ((List.replicate 66 (0 : Nat)).length / 192) + 100000 ∧
    BN128Pair.run Fork.Byzantium (fun _ _ => true) (fun _ _ => (1 : Nat))
        (List.replicate 66 0) 100000 ⟨0, 0, 0⟩ =
      some (Except.error ExitError.OutOfGas) := by
  refine ⟨by decide, by decide⟩

/-- C1 (amended): ECPAIRING's required gas is
`per_point · len / 192 + base` with the flooring division applied after
the multiplication; this equals `per_point · (len/192) + base` whenever
`len` is a multiple of 192.  For a 66-byte input the required gas is
127500 (Byzantium) / 56687 (Istanbul), and whenever the gas limit covers
it the call fails with the framing error. -/
theorem pair_required_gas_spec {Gt : Type} [One Gt] [Mul Gt] [DecidableEq Gt]
    (g2Valid : Fq2 → Fq2 → Bool) (pairing : G1 → G2 → Gt)
    (f : Fork) (input : List Nat) (gas : Nat) (ctx : Context) :
    (pairRequiredGas f input = pairRequiredGas_amended f input.length) ∧
    (input.length % 192 = 0 →
      pairRequiredGas f input =
        pairPerPoint f * (input.length / 192) + pairBase f) ∧
    (input.length = 66 →
      pairRequiredGas Fork.Byzantium input = 127500 ∧
      pairRequiredGas Fork.Istanbul input = 56687 ∧
      (pairRequiredGas f input ≤ gas →
        BN128Pair.run f g2Valid pairing input gas ctx =
          some (Except.error (ExitError.Other msgPairLen)))) := by
  refine ⟨rfl, ?_, ?_⟩
  · intro h
    obtain ⟨k, hk⟩ := Nat.dvd_of_mod_eq_zero h
    simp only [pairRequiredGas, hk]
    have e2 : pairPerPoint f * (192 * k) = 192 * (pairPerPoint f * k) := by ring
    rw [e2, Nat.mul_div_cancel_left _ (by norm_num),
      Nat.mul_div_cancel_left _ (by norm_num)]
  · intro h66
    refine ⟨?_, ?_, ?_⟩
    · simp [pairRequiredGas, h66, pairPerPoint, pairBase]
    · simp [pairRequiredGas, h66, pairPerPoint, pairBase]
    · intro hgas
      rw [BN128Pair.run, if_neg (Nat.not_lt.mpr hgas), BN128Pair.run_inner,
        if_pos (by rw [h66]; decide)]

/-- Witness for C1 (amended): a concrete 66-byte input with enough gas
reaches the framing error, at the corrected thresholds. -/
theorem pair_required_gas_spec_witness :
    pairRequiredGas Fork.Byzantium (List.replicate 66 0) = 127500 ∧
    BN128Pair.run Fork.Byzantium (fun _ _ => true) (fun _ _ => (1 : Nat))
        (List.replicate 66 0) 127500 ⟨0, 0, 0⟩ =
      some (Except.error (ExitError.Other msgPairLen)) := by
  constructor
  · exact ((pair_required_gas_spec (fun _ _ => true) (fun _ _ => 1)
      Fork.Byzantium (List.replicate 66 0) 127500 ⟨0, 0, 0⟩).2.2 (by decide)).1
  · exact ((pair_required_gas_spec (fun _ _ => true) (fun _ _ => 1)
      Fork.Byzantium (List.replicate 66 0) 127500 ⟨0, 0, 0⟩).2.2
      (by decide)).2.2 (by decide)

/-- C3: within a 192-byte pairing element whose lanes all decode, the
four G2 lanes at offsets 64..96, 96..128, 128..160, 160..192 are read as
`(ay, ax, by, bx)` — imaginary part first on the wire — and the G2 point
is constructed from `Fq2(ax, ay)` and `Fq2(bx, by)`, i.e. `Fq2`
construction takes (real, imag). -/
theorem pair_g2_lane_order (g2Valid : Fq2 → Fq2 → Bool) (input : List Nat)
    (idx : Nat) (hlen : idx * 192 + 192 ≤ input.length)
    (h0 : elemLane input idx 0 < bnP) (h1 : elemLane input idx 1 < bnP)
    (h2 : elemLane input idx 2 < bnP) (h3 : elemLane input idx 3 < bnP)
    (h4 : elemLane input idx 4 < bnP) (h5 : elemLane input idx 5 < bnP)
    (ha : (elemLane input idx 0 = 0 ∧ elemLane input idx 1 = 0) ∨
      onCurveG1 (elemLane input idx 0) (elemLane input idx 1) = true)
    (hbz : ¬(elemLane input idx 2 = 0 ∧ elemLane input idx 3 = 0 ∧
      elemLane input idx 4 = 0 ∧ elemLane input idx 5 = 0))
    (hv : g2Valid ⟨elemLane input idx 3, elemLane input idx 2⟩
      ⟨elemLane input idx 5, elemLane input idx 4⟩ = true) :
    ∃ a, BN128Pair.decodePairElement g2Valid input idx =
      some (Except.ok (a,
        G2.point ⟨elemLane input idx 3, elemLane input idx 2⟩
          ⟨elemLane input idx 5, elemLane input idx 4⟩)) := by
  have e0 : elemLane input idx 0 = lane input (idx * 192) := by
    simp [elemLane]
  have e1 : elemLane input idx 1 = lane input (idx * 192 + 32) := by
    simp [elemLane]
  have e2 : elemLane input idx 2 = lane input (idx * 192 + 64) := by
    simp [elemLane]
  have e3 : elemLane input idx 3 = lane input (idx * 192 + 96) := by
    simp [elemLane]
  have e4 : elemLane input idx 4 = lane input (idx * 192 + 128) := by
    simp [elemLane]
  have e5 : elemLane input idx 5 = lane input (idx * 192 + 160) := by
    simp [elemLane]
  rw [e0] at h0
  rw [e1] at h1
  rw [e2] at h2
  rw [e3] at h3
  rw [e4] at h4
  rw [e5] at h5
  rw [e0, e1] at ha
  rw [e2, e3, e4, e5] at hbz
  rw [e2, e3, e4, e5] at hv
  rw [e2, e3, e4, e5]
  simp only [BN128Pair.decodePairElement,
    readFq_eq msgAX (show idx * 192 + 32 ≤ input.length by omega),
    readFq_eq msgAY (show idx * 192 + 32 + 32 ≤ input.length by omega),
    readFq_eq msgAX (show idx * 192 + 64 + 32 ≤ input.length by omega),
    readFq_eq msgAX (show idx * 192 + 96 + 32 ≤ input.length by omega),
    readFq_eq msgAX (show idx * 192 + 128 + 32 ≤ input.length by omega),
    readFq_eq msgAX (show idx * 192 + 160 + 32 ≤ input.length by omega),
    if_pos h0, if_pos h1, if_pos h2, if_pos h3, if_pos h4, if_pos h5]
  have hbz' : ¬((⟨lane input (idx * 192 + 96), lane input (idx * 192 + 64)⟩ : Fq2)
      = ⟨0, 0⟩ ∧
      (⟨lane input (idx * 192 + 160), lane input (idx * 192 + 128)⟩ : Fq2)
      = ⟨0, 0⟩) := by
    simp only [Fq2.mk.injEq]
    tauto
  rcases ha with ⟨hz0, hz1⟩ | hcurve
  · refine ⟨G1.zero, ?_⟩
    rw [if_pos ⟨hz0, hz1⟩]
    simp only [if_neg hbz', if_pos hv]
  · refine ⟨if lane input (idx * 192) = 0 ∧ lane input (idx * 192 + 32) = 0
      then G1.zero else G1.point (lane input (idx * 192))
        (lane input (idx * 192 + 32)), ?_⟩
    by_cases hz : lane input (idx * 192) = 0 ∧ lane input (idx * 192 + 32) = 0
    · rw [if_pos hz, if_pos hz]
      simp only [if_neg hbz', if_pos hv]
    · rw [if_neg hz, if_neg hz, if_pos hcurve]
      simp only [if_neg hbz', if_pos hv]

/-- Witness for C3: a concrete element with `ay = 1` at offset 64 decodes
to a G2 point whose `x` coordinate is `Fq2` with real part 0 and
imaginary part 1. -/
theorem pair_g2_lane_order_witness :
    ∃ a, BN128Pair.decodePairElement (fun _ _ => true)
        (List.replicate 64 0 ++ ((List.replicate 31 0 ++ [1]) ++
          List.replicate 96 0)) 0 =
      some (Except.ok (a, G2.point ⟨0, 1⟩ ⟨0, 0⟩)) := by
  have h := pair_g2_lane_order (fun _ _ => true)
    (List.replicate 64 0 ++ ((List.replicate 31 0 ++ [1]) ++
      List.replicate 96 0)) 0
    (by decide) (by decide) (by decide) (by decide) (by decide) (by decide)
    (by decide) (Or.inl (by decide)) (by decide) (by decide)
  obtain ⟨a, ha⟩ := h
  refine ⟨a, ?_⟩
  rw [ha]
  have c2 : elemLane (List.replicate 64 0 ++ ((List.replicate 31 0 ++ [1]) ++
      List.replicate 96 0)) 0 2 = 1 := by decide
  have c3 : elemLane (List.replicate 64 0 ++ ((List.replicate 31 0 ++ [1]) ++
      List.replicate 96 0)) 0 3 = 0 := by decide
  have c4 : elemLane (List.replicate 64 0 ++ ((List.replicate 31 0 ++ [1]) ++
      List.replicate 96 0)) 0 4 = 0 := by decide
  have c5 : elemLane (List.replicate 64 0 ++ ((List.replicate 31 0 ++ [1]) ++
      List.replicate 96 0)) 0 5 = 0 := by decide
  rw [c2, c3, c4, c5]

end Bn128

namespace Bn128

set_option maxRecDepth 10000

/-- Counterexample for C8: an out-of-range Fq lane in the G2 half of a
pairing element (here the lane at offsets 64..96, set to 2^256 − 1) does
not yield a different error kind: it yields the very same
`invalid a argument, x coordinate` error as the G1 `x` lane. -/
theorem pair_decode_error_kinds_counterexample :
    BN128Pair.decodePairElement (fun _ _ => true)
        (List.replicate 64 0 ++ (List.replicate 32 255 ++ List.replicate 96 0))
        0 =
      some (Except.error (ExitError.Other msgAX)) := by
  decide

/-- C8 (amended): during ECPAIRING element decoding the error kind
`invalid a argument, y coordinate` is triggered exactly by an
out-of-range Fq element in the G1 `y` lane (offsets 32..64), while
`invalid a argument, x coordinate` is triggered by an out-of-range Fq
element in the G1 `x` lane (offsets 0..32) and equally by any of the four
G2 lanes (offsets 64..96, 96..128, 128..160, 160..192): the G2 half
yields the same `x coordinate` error kind, not a different one. -/
theorem pair_decode_error_kinds (g2Valid : Fq2 → Fq2 → Bool)
    (input : List Nat) (idx : Nat) (hlen : idx * 192 + 192 ≤ input.length) :
    (BN128Pair.decodePairElement g2Valid input idx =
        some (Except.error (ExitError.Other msgAY)) ↔
      elemLane input idx 0 < bnP ∧ bnP ≤ elemLane input idx 1) ∧
    (BN128Pair.decodePairElement g2Valid input idx =
        some (Except.error (ExitError.Other msgAX)) ↔
      (bnP ≤ elemLane input idx 0 ∨
        (elemLane input idx 0 < bnP ∧ elemLane input idx 1 < bnP ∧
          (bnP ≤ elemLane input idx 2 ∨ bnP ≤ elemLane input idx 3 ∨
            bnP ≤ elemLane input idx 4 ∨ bnP ≤ elemLane input idx 5)))) := by
  have hne1 : msgAX ≠ msgAY := by decide
  have hne2 : msgANotOnCurve ≠ msgAY := by decide
  have hne3 : msgBNotOnCurve ≠ msgAY := by decide
  have hne4 : msgANotOnCurve ≠ msgAX := by decide
  have hne5 : msgBNotOnCurve ≠ msgAX := by decide
  have e0 : elemLane input idx 0 = lane input (idx * 192) := by
    simp [elemLane]
  have e1 : elemLane input idx 1 = lane input (idx * 192 + 32) := by
    simp [elemLane]
  have e2 : elemLane input idx 2 = lane input (idx * 192 + 64) := by
    simp [elemLane]
  have e3 : elemLane input idx 3 = lane input (idx * 192 + 96) := by
    simp [elemLane]
  have e4 : elemLane input idx 4 = lane input (idx * 192 + 128) := by
    simp [elemLane]
  have e5 : elemLane input idx 5 = lane input (idx * 192 + 160) := by
    simp [elemLane]
  rw [e0, e1, e2, e3, e4, e5]
  simp only [BN128Pair.decodePairElement,
    readFq_eq msgAX (show idx * 192 + 32 ≤ input.length by omega),
    readFq_eq msgAY (show idx * 192 + 32 + 32 ≤ input.length by omega),
    readFq_eq msgAX (show idx * 192 + 64 + 32 ≤ input.length by omega),
    readFq_eq msgAX (show idx * 192 + 96 + 32 ≤ input.length by omega),
    readFq_eq msgAX (show idx * 192 + 128 + 32 ≤ input.length by omega),
    readFq_eq msgAX (show idx * 192 + 160 + 32 ≤ input.length by omega)]
  by_cases c0 : lane input (idx * 192) < bnP
  · by_cases c1 : lane input (idx * 192 + 32) < bnP
    · by_cases c2 : lane input (idx * 192 + 64) < bnP
      · by_cases c3 : lane input (idx * 192 + 96) < bnP
        · by_cases c4 : lane input (idx * 192 + 128) < bnP
          · by_cases c5 : lane input (idx * 192 + 160) < bnP
            · simp only [if_pos c0, if_pos c1, if_pos c2, if_pos c3,
                if_pos c4, if_pos c5]
              constructor <;>
                (constructor
                 · intro hcon
                   revert hcon
                   split
                   · simp [hne2, hne4]
                   · split
                     · simp
                     · split <;> simp [hne3, hne5]
                 · intro hrhs
                   exfalso
                   omega)
            · simp only [if_pos c0, if_pos c1, if_pos c2, if_pos c3,
                if_pos c4, if_neg c5]
              simp [hne1, Nat.not_le.mpr c1]
              omega
          · simp only [if_pos c0, if_pos c1, if_pos c2, if_pos c3, if_neg c4]
            simp [hne1, Nat.not_le.mpr c1]
            omega
        · simp only [if_pos c0, if_pos c1, if_pos c2, if_neg c3]
          simp [hne1, Nat.not_le.mpr c1]
          omega
      · simp only [if_pos c0, if_pos c1, if_neg c2]
        simp [hne1, Nat.not_le.mpr c1]
        omega
    · simp only [if_pos c0, if_neg c1]
      simp [Ne.symm hne1, c0, Nat.le_of_not_lt c1, Nat.not_le.mpr c0]
  · simp only [if_neg c0]
    simp [hne1, Nat.le_of_not_lt c0]

/-- Witness for C8 (amended): on an element whose G1 `y` lane is out of
range, decoding fails with the `y coordinate` kind. -/
theorem pair_decode_error_kinds_witness :
    BN128Pair.decodePairElement (fun _ _ => true)
        (List.replicate 32 0 ++ (List.replicate 32 255 ++
          List.replicate 128 0)) 0 =
      some (Except.error (ExitError.Other msgAY)) :=
  (pair_decode_error_kinds (fun _ _ => true)
    (List.replicate 32 0 ++ (List.replicate 32 255 ++ List.replicate 128 0))
    0 (by decide)).1.mpr ⟨by decide, by decide⟩

end Bn128

namespace Bn128

set_option maxRecDepth 10000

/-- C4: for every input whose length is a multiple of 192 and whose
elements all decode to valid (G1, G2) pairs, ECPAIRING (with sufficient
gas) returns status `Returned` with output the 32-byte big-endian
encoding of 1 if the product of the pairings over all elements equals the
Gt identity and of 0 otherwise; in particular the empty input yields the
32-byte big-endian encoding of 1. -/
theorem pairing_semantics {Gt : Type} [One Gt] [Mul Gt] [DecidableEq Gt]
    (g2Valid : Fq2 → Fq2 → Bool) (pairing : G1 → G2 → Gt)
    (f : Fork) (input : List Nat) (gas : Nat) (ctx : Context)
    (hgas : pairRequiredGas f input ≤ gas)
    (hlen : input.length % 192 = 0) :
    (input = [] →
      BN128Pair.run f g2Valid pairing input gas ctx =
        some (Except.ok (ExitSucceed.Returned, natToBE32 1, 0))) ∧
    (∀ vals, BN128Pair.decodeElems g2Valid input (input.length / 192) =
        some (Except.ok vals) →
      BN128Pair.run f g2Valid pairing input gas ctx =
        some (Except.ok (ExitSucceed.Returned,
          natToBE32
            (if vals.foldl (fun s ab => s * pairing ab.1 ab.2) 1 = (1 : Gt)
             then 1 else 0),
          0))) := by
  rw [BN128Pair.run, if_neg (Nat.not_lt.mpr hgas), BN128Pair.run_inner,
    if_neg (by simp [hlen])]
  constructor
  · intro hempty
    rw [if_pos hempty]
  · intro vals hdec
    by_cases hempty : input = []
    · rw [if_pos hempty]
      subst hempty
      have hv : vals = [] := by
        simp only [List.length_nil, Nat.zero_div, BN128Pair.decodeElems,
          Option.some.injEq, Except.ok.injEq] at hdec
        exact hdec.symm
      subst hv
      simp
    · rw [if_neg hempty, hdec]

/-- Witness for C4: a single all-zero element decodes to the pair of
identities; with the trivial oracle the pairing product is 1, so the
output is the 32-byte encoding of 1. -/
theorem pairing_semantics_witness :
    BN128Pair.run Fork.Byzantium (fun _ _ => true) (fun _ _ => (1 : Nat))
        (List.replicate 192 0) 180000 ⟨0, 0, 0⟩ =
      some (Except.ok (ExitSucceed.Returned, natToBE32 1, 0)) := by
  have h := (pairing_semantics (fun _ _ => true) (fun _ _ => 1)
    Fork.Byzantium (List.replicate 192 0) 180000 ⟨0, 0, 0⟩
    (by decide) (by decide)).2 [(G1.zero, G2.zero)] (by decide)
  exact h.trans (by decide)

end Bn128
